import Mathlib

/-!
Verification of the advanced-vector library (`src/advanced-vector/vector.h`):
a raw-storage owner (`RawMemory<T>`) plus a growable sequence (`Vector<T>`).

Two levels of embedding are used.

* `AdvancedVector.Vector` — a value-level model: the live elements
  (slots `[0, size)`) as a list together with the capacity of the owned
  storage.  All algorithmic operations (`Reserve`, `Resize`, the
  `Insert`/`Emplace` family, `Erase`, copy assignment) are translated from
  the source at this level; an iterator `pos` is modelled by the index
  `std::distance(cbegin(), pos)`.

* `AdvancedVector.VecObj` with a two-object store — a field-level model of
  `Vector`'s members (`data_.buffer_`, `data_.capacity_`, `size_`) used for
  the move-assignment bodies, whose behaviour under aliasing
  (self-move-assignment) depends on the exact order of the member
  assignments, which the model executes one by one.

Exception behaviour of the relocating operations is modelled by translating
`std::uninitialized_copy_n` / `std::uninitialized_move_n` for an element
type whose copy (resp. move) constructor succeeds a bounded number of times
and then throws.
-/

namespace AdvancedVector

/-- Value-level model of `Vector<T>`: `elems` lists the live elements held in
slots `[0, size_)`, so `elems.length` is `size_`; `capacity` is
`data_.capacity_`. -/
structure Vector (α : Type) where
  elems : List α
  capacity : Nat
deriving DecidableEq

/-- `Vector::Size()` (vector.h:212-214). -/
def Vector.Size (v : Vector α) : Nat := v.elems.length

/-- `Vector::Capacity()` (vector.h:216-218), i.e. `data_.Capacity()`. -/
def Vector.Capacity (v : Vector α) : Nat := v.capacity

/-- `Vector::Reserve(size_t new_capacity)` (vector.h:197-210): no-op when
`new_capacity <= data_.Capacity()`; otherwise allocate exactly
`new_capacity` slots, relocate all live elements into them, destroy the old
ones and swap the storages. -/
def Vector.Reserve (v : Vector α) (new_capacity : Nat) : Vector α :=
  if new_capacity ≤ v.capacity then v
  else { elems := v.elems, capacity := new_capacity }

/-- `Vector::Resize(size_t new_size)` (vector.h:229-240): equal size is a
no-op; shrinking destroys the trailing `size_ - new_size` elements; growing
calls `Reserve(new_size)` and then value-constructs the `new_size - size_`
new trailing slots (value construction of `T` is modelled by `default`). -/
def Vector.Resize [Inhabited α] (v : Vector α) (new_size : Nat) : Vector α :=
  if new_size = Vector.Size v then v
  else if new_size < Vector.Size v then
    { elems := v.elems.take new_size, capacity := v.capacity }
  else
    { elems := (v.Reserve new_size).elems ++
        List.replicate (new_size - Vector.Size v) default,
      capacity := (v.Reserve new_size).capacity }

/-- `Vector::EmplaceShared(pos, args...)` (vector.h:282-328), with the
iterator `pos` modelled by the index `idx = std::distance(cbegin(), pos)`
and the value of the constructed element by `x`.  In the capacity-exhausted
branch, storage of `size_ == 0 ? 1 : size_ * 2` slots is acquired, the new
element is constructed at slot `idx` of it, the elements `[0, idx)` are
relocated before it and `[idx, size_)` after it, then the old elements are
destroyed and the storages swapped — the live contents become
`take idx ++ x :: drop idx`.  In the in-place branch, either `pos == cend()`
and the element is constructed in the first free slot (contents
`elems ++ [x]`), or a temporary is materialised, the last element is
move-constructed into the first free slot, `[idx, size_ - 1)` is shifted one
slot right by backward move assignment and the temporary is move-assigned
into slot `idx` — the live contents again become
`take idx ++ x :: drop idx`.  Returns the new state and the index of the
returned iterator. -/
def Vector.EmplaceShared (v : Vector α) (idx : Nat) (x : α) : Vector α × Nat :=
  if Vector.Size v = Vector.Capacity v then
    ({ elems := v.elems.take idx ++ x :: v.elems.drop idx,
       capacity := if Vector.Size v = 0 then 1 else Vector.Size v * 2 }, idx)
  else
    if idx = Vector.Size v then
      ({ elems := v.elems ++ [x], capacity := v.capacity }, idx)
    else
      ({ elems := v.elems.take idx ++ x :: v.elems.drop idx,
         capacity := v.capacity }, idx)

/-- `Vector::PushBack(value)` (vector.h:242-248): `EmplaceShared(end(), value)`. -/
def Vector.PushBack (v : Vector α) (x : α) : Vector α :=
  (v.EmplaceShared (Vector.Size v) x).1

/-- `Vector::EmplaceBack(args...)` (vector.h:254-257): returns
`*(EmplaceShared(end(), args...))`; the returned reference is modelled by
the index of the iterator `EmplaceShared` returned. -/
def Vector.EmplaceBack (v : Vector α) (x : α) : Vector α × Nat :=
  v.EmplaceShared (Vector.Size v) x

/-- `Vector::Emplace(pos, args...)` (vector.h:266-269). -/
def Vector.Emplace (v : Vector α) (idx : Nat) (x : α) : Vector α × Nat :=
  v.EmplaceShared idx x

/-- `Vector::Insert(pos, value)` (vector.h:271-276). -/
def Vector.Insert (v : Vector α) (idx : Nat) (x : α) : Vector α × Nat :=
  v.EmplaceShared idx x

/-- `Vector::PopBack()` (vector.h:249-252): destroy the last element and
decrement `size_`. -/
def Vector.PopBack (v : Vector α) : Vector α :=
  { elems := v.elems.take (Vector.Size v - 1), capacity := v.capacity }

/-- `Vector::Erase(pos)` (vector.h:259-264): `pos->~T()` destroys slot
`idx`, `std::move(pos + 1, end(), pos)` shifts the following elements one
slot left, `size_` is decremented, and `begin() + distance(cbegin(), pos)`
is returned (modelled by the index `idx`). -/
def Vector.Erase (v : Vector α) (idx : Nat) : Vector α × Nat :=
  ({ elems := v.elems.take idx ++ v.elems.drop (idx + 1),
     capacity := v.capacity }, idx)

/-- `Vector::operator=(const Vector& rhs)` (vector.h:155-176) for distinct
objects (the body is guarded by `this != &rhs`). -/
def Vector.copyAssign (v rhs : Vector α) : Vector α :=
  if Vector.Capacity v < Vector.Size rhs then
    -- Vector rhs_copy(rhs); Swap(rhs_copy): the copy constructor allocates
    -- storage sized rhs.size_ and copy-constructs each element
    { elems := rhs.elems, capacity := Vector.Size rhs }
  else if Vector.Size rhs < Vector.Size v then
    -- data_[i] = rhs[i] for i != rhs.Size(), then destroy_n of the
    -- Size() - rhs.Size() trailing elements
    { elems := (rhs.elems ++ v.elems.drop (Vector.Size rhs)).take (Vector.Size rhs),
      capacity := v.capacity }
  else
    -- data_[i] = rhs[i] for i != Size(), then uninitialized_copy_n of the
    -- remaining rhs.Size() - Size() elements of rhs after them
    { elems := rhs.elems.take (Vector.Size v) ++ rhs.elems.drop (Vector.Size v),
      capacity := v.capacity }

/-- `k` successive `PushBack`s starting from a default-constructed vector
(capacity 0, no elements). -/
def pushNTimes : Nat → Vector Nat
  | 0 => { elems := [], capacity := 0 }
  | k + 1 => (pushNTimes k).PushBack k

/-- `std::uninitialized_copy_n(src, n, dst)` over the whole source range for
an element type whose copy constructor throws on its `(budget + 1)`-st
invocation: copies the values in order, spending one unit of budget per
element; on a throw the already-constructed destination elements are
destroyed and the exception propagates (`none`), with the source range
untouched.  On success, returns the copied values and the remaining
budget. -/
def uninitializedCopyN : Nat → List α → Option (List α × Nat)
  | b, [] => some ([], b)
  | 0, _ :: _ => none
  | b + 1, x :: xs =>
    match uninitializedCopyN b xs with
    | none => none
    | some (ys, b2) => some (x :: ys, b2)

/-- `Vector::Reserve` (vector.h:197-210) instantiated at an element type
with a throwing copy constructor, so that the relocation rule selects
`std::uninitialized_copy_n` (the type is copy-constructible and not
nothrow-move-constructible).  The only writes to `data_` and `size_`
(`std::destroy_n` of the old elements and `data_.Swap(new_data)`) happen
after the relocation loop has fully succeeded; when the loop throws, the
partially filled local `new_data` is destroyed and deallocated and the
exception propagates with the vector member fields untouched.
`Except.error` carries the vector state observable after the throw. -/
def Vector.ReserveThrowingCopy (v : Vector α) (new_capacity budget : Nat) :
    Except (Vector α) (Vector α × Nat) :=
  if new_capacity ≤ v.capacity then .ok (v, budget)
  else
    match uninitializedCopyN budget v.elems with
    | none => .error v
    | some (copied, b) => .ok ({ elems := copied, capacity := new_capacity }, b)

/-- The capacity-exhausted branch of `Vector::EmplaceShared`
(vector.h:285-311) instantiated at an element type with a throwing copy
constructor, for `Insert(pos, value)`: the placement construction
`new (new_data + idx) T(value)` is itself a copy of `value` and also spends
budget.  The first catch block destroys the just-constructed element; the
second destroys the relocated `[0, idx)` elements and the new element —
both act only on the scratch `new_data`, and the vector member fields are
written only by the final `std::destroy_n` + `data_.Swap` + `++size_`,
after every fallible step.  `Except.error` carries the vector state
observable after the throw. -/
def Vector.emplaceReallocThrowingCopy (v : Vector α) (idx : Nat) (x : α)
    (budget : Nat) : Except (Vector α) ((Vector α × Nat) × Nat) :=
  match budget with
  | 0 => .error v          -- new (new_data + idx) T(value) throws
  | b0 + 1 =>
    match uninitializedCopyN b0 (v.elems.take idx) with
    | none => .error v     -- catch: result->~T(); throw;
    | some (pre, b1) =>
      match uninitializedCopyN b1 (v.elems.drop idx) with
      | none => .error v   -- catch: destroy_n(new_data, idx); result->~T(); throw;
      | some (tail, b2) =>
        .ok (({ elems := pre ++ x :: tail,
                capacity := if Vector.Size v = 0 then 1 else Vector.Size v * 2 },
              idx), b2)

/-- A move-only element type whose move constructor can throw: a nullable
box holding a `Nat`.  A successful move transfers the box and empties the
source (`none` models the moved-from state).  Such a `T` is not
copy-constructible, so `Vector<T>`'s relocation rule selects
`std::uninitialized_move_n` (the `!std::is_copy_constructible_v<T>` arm of
the `if constexpr`). -/
abbrev ThrowingMoveBox : Type := Option Nat

/-- `std::uninitialized_move_n` over the whole source range for
`ThrowingMoveBox`, with a move constructor that throws on its
`(budget + 1)`-st invocation before transferring.  Returns the source slots
as the loop leaves them (already-moved elements are moved-from) together
with either the moved values and the remaining budget, or `none` when a
move threw (the partially constructed destination is destroyed before the
exception propagates). -/
def uninitializedMoveN :
    Nat → List ThrowingMoveBox → List ThrowingMoveBox × Option (List ThrowingMoveBox × Nat)
  | b, [] => ([], some ([], b))
  | 0, x :: xs => (x :: xs, none)
  | b + 1, x :: xs =>
    let r := uninitializedMoveN b xs
    (none :: r.1, r.2.map fun p => (x :: p.1, p.2))

/-- `Vector::Reserve` (vector.h:197-210) instantiated at `ThrowingMoveBox`,
so that the relocation rule selects `std::uninitialized_move_n`.  When a
move throws mid-relocation, the destination is cleaned up and deallocated
and the exception propagates, but the already-moved source elements remain
moved-from in the old storage, which the vector keeps. -/
def Vector.ReserveMoveBox (v : Vector ThrowingMoveBox) (new_capacity budget : Nat) :
    Except (Vector ThrowingMoveBox) (Vector ThrowingMoveBox × Nat) :=
  if new_capacity ≤ v.capacity then .ok (v, budget)
  else
    match uninitializedMoveN budget v.elems with
    | (damaged, none) => .error { elems := damaged, capacity := v.capacity }
    | (_, some (moved, b)) => .ok ({ elems := moved, capacity := new_capacity }, b)

/-- Field-level model of a `Vector<T>` object: `buffer` is the content of
the allocation `data_.buffer_` points to (`[]` for `nullptr`), `capacity`
is `data_.capacity_`, and `size` is `size_`. -/
structure VecObj (α : Type) where
  buffer : List α
  capacity : Nat
  size : Nat
deriving DecidableEq

/-- A two-object store over which the assignment bodies execute: `this` and
`rhs` are handles that may refer to the same object. -/
def Store (α : Type) : Type := Bool → VecObj α

/-- Write object `o` at handle `i`. -/
def setObj (h : Store α) (i : Bool) (o : VecObj α) : Store α :=
  fun j => if j = i then o else h j

/-- `RawMemory::operator=(RawMemory&& rhs)` (vector.h:32-38): the member
assignments `buffer_ = rhs.buffer_; capacity_ = rhs.capacity_;
rhs.buffer_ = nullptr; rhs.capacity_ = 0;` executed in order on handles `t`
(this) and `r` (rhs), which may alias.  Note the old `buffer_` of `t` is
overwritten without being deallocated. -/
def rawMemoryMoveAssign (h : Store α) (t r : Bool) : Store α :=
  let h1 := setObj h t { h t with buffer := (h r).buffer }
  let h2 := setObj h1 t { h1 t with capacity := (h1 r).capacity }
  let h3 := setObj h2 r { h2 r with buffer := [] }
  setObj h3 r { h3 r with capacity := 0 }

/-- `Vector::operator=(Vector&& rhs)` (vector.h:185-190):
`data_ = std::move(rhs.data_); size_ = rhs.size_; rhs.size_ = 0;` with no
self-assignment guard. -/
def vectorMoveAssign (h : Store α) (t r : Bool) : Store α :=
  let h1 := rawMemoryMoveAssign h t r
  let h2 := setObj h1 t { h1 t with size := (h1 r).size }
  setObj h2 r { h2 r with size := 0 }

/-- `Vector::Vector(Vector&& other)` (vector.h:179-183): the new object
starts with default members (`buffer_ = nullptr`, `capacity_ = 0`,
`size_ = 0`) and then runs the same three statements as move assignment;
returns the pair (constructed object, source afterwards). -/
def vectorMoveConstruct (src : VecObj α) : VecObj α × VecObj α :=
  let h : Store α := fun b =>
    if b then { buffer := [], capacity := 0, size := 0 } else src
  let h2 := vectorMoveAssign h true false
  (h2 true, h2 false)

/-! Helper lemmas about the list surgery performed by the operations. -/

theorem length_insertAt (l : List α) (x : α) (idx : Nat) (h : idx ≤ l.length) :
    (l.take idx ++ x :: l.drop idx).length = l.length + 1 := by
  simp only [List.length_append, List.length_take, List.length_cons, List.length_drop]
  omega

theorem getElem?_insertAt_self (l : List α) (x : α) (idx : Nat) (h : idx ≤ l.length) :
    (l.take idx ++ x :: l.drop idx)[idx]? = some x := by
  have hlen : (l.take idx).length = idx := by simp; omega
  rw [List.getElem?_append, hlen]
  simp

theorem getElem?_insertAt_lt (l : List α) (x : α) (idx j : Nat) (hj : j < idx)
    (h : idx ≤ l.length) : (l.take idx ++ x :: l.drop idx)[j]? = l[j]? := by
  have hlen : (l.take idx).length = idx := by simp; omega
  rw [List.getElem?_append, hlen, if_pos hj, List.getElem?_take, if_pos hj]

theorem getElem?_insertAt_ge (l : List α) (x : α) (idx j : Nat) (hj : idx ≤ j)
    (h : j < l.length) : (l.take idx ++ x :: l.drop idx)[j + 1]? = l[j]? := by
  have hlen : (l.take idx).length = idx := by simp; omega
  rw [List.getElem?_append, hlen, if_neg (by omega)]
  have hsub : j + 1 - idx = (j - idx) + 1 := by omega
  rw [hsub, List.getElem?_cons_succ, List.getElem?_drop]
  have : idx + (j - idx) = j := by omega
  rw [this]

theorem length_eraseAt (l : List α) (idx : Nat) (h : idx < l.length) :
    (l.take idx ++ l.drop (idx + 1)).length = l.length - 1 := by
  simp only [List.length_append, List.length_take, List.length_drop]
  omega

theorem getElem?_eraseAt_lt (l : List α) (idx j : Nat) (hj : j < idx)
    (h : idx < l.length) : (l.take idx ++ l.drop (idx + 1))[j]? = l[j]? := by
  have hlen : (l.take idx).length = idx := by simp; omega
  rw [List.getElem?_append, hlen, if_pos hj, List.getElem?_take, if_pos hj]

theorem getElem?_eraseAt_ge (l : List α) (idx j : Nat) (hj : idx ≤ j)
    (h : idx < l.length) : (l.take idx ++ l.drop (idx + 1))[j]? = l[j + 1]? := by
  have hlen : (l.take idx).length = idx := by simp; omega
  rw [List.getElem?_append, hlen, if_neg (by omega), List.getElem?_drop]
  have : idx + 1 + (j - idx) = j + 1 := by omega
  rw [this]

/-- In every branch of `EmplaceShared` the resulting live contents are the
old contents with `x` inserted at index `idx`. -/
theorem Vector.elems_emplaceShared (v : Vector α) (idx : Nat) (x : α) :
    (v.EmplaceShared idx x).1.elems = v.elems.take idx ++ x :: v.elems.drop idx := by
  unfold Vector.EmplaceShared
  split
  · rfl
  · split
    · rename_i hidx
      simp [hidx, Vector.Size]
    · rfl

/-- The index returned by `EmplaceShared` is the insertion index. -/
theorem Vector.snd_emplaceShared (v : Vector α) (idx : Nat) (x : α) :
    (v.EmplaceShared idx x).2 = idx := by
  unfold Vector.EmplaceShared
  split
  · rfl
  · split <;> rfl

/-- `Reserve` keeps the live contents. -/
theorem Vector.reserve_elems (v : Vector α) (n : Nat) :
    (v.Reserve n).elems = v.elems := by
  unfold Vector.Reserve
  split <;> rfl

/-- The capacity after `Reserve(n)` is the larger of the old capacity and `n`. -/
theorem Vector.reserve_capacity (v : Vector α) (n : Nat) :
    (v.Reserve n).capacity = max v.capacity n := by
  unfold Vector.Reserve
  split
  · omega
  · show n = max v.capacity n
    omega

/-- Shrinking `Resize` truncates the live contents. -/
theorem Vector.resize_shrink_elems [Inhabited α] (v : Vector α) (n : Nat)
    (h : n < Vector.Size v) : (v.Resize n).elems = v.elems.take n := by
  unfold Vector.Resize
  rw [if_neg (by omega), if_pos h]

/-- Shrinking `Resize` leaves the capacity alone. -/
theorem Vector.resize_shrink_capacity [Inhabited α] (v : Vector α) (n : Nat)
    (h : n < Vector.Size v) : (v.Resize n).capacity = v.capacity := by
  unfold Vector.Resize
  rw [if_neg (by omega), if_pos h]

/-- Growing `Resize` appends default-valued elements to the live contents. -/
theorem Vector.resize_grow_elems [Inhabited α] (v : Vector α) (n : Nat)
    (h : Vector.Size v < n) :
    (v.Resize n).elems = v.elems ++ List.replicate (n - Vector.Size v) default := by
  unfold Vector.Resize
  rw [if_neg (by omega), if_neg (by omega), Vector.reserve_elems]

/-- Growing `Resize` ends with the capacity `Reserve(n)` produces. -/
theorem Vector.resize_grow_capacity [Inhabited α] (v : Vector α) (n : Nat)
    (h : Vector.Size v < n) : (v.Resize n).capacity = max v.capacity n := by
  unfold Vector.Resize
  rw [if_neg (by omega), if_neg (by omega)]
  exact Vector.reserve_capacity v n

/-! The claims. -/

/-- Claim C1 (amended): if the element type's copy operation throws during
`Reserve` or during the capacity-exhausted (reallocating) branch of
`Insert`/`Emplace` — the relocation-by-copy case, which the relocation rule
selects whenever the type is copy-constructible and not
nothrow-move-constructible; a nothrow-move relocation cannot throw — then
afterwards the sequence's size, capacity and every element's value are
exactly what they were before the call, for every vector state and every
throw point.  (For a move-only element type whose move can throw the code
relocates by move and the guarantee fails; see the counterexample.) -/
theorem claim1_strong_guarantee_copy_relocation (α : Type) :
    (∀ (v : Vector α) (n b : Nat) (w : Vector α),
      v.ReserveThrowingCopy n b = .error w → w = v) ∧
    (∀ (v : Vector α) (idx : Nat) (x : α) (b : Nat) (w : Vector α),
      v.emplaceReallocThrowingCopy idx x b = .error w → w = v) := by
  constructor
  · intro v n b w h
    unfold Vector.ReserveThrowingCopy at h
    split at h
    · cases h
    · cases hc : uninitializedCopyN b v.elems with
      | none => rw [hc] at h; cases h; rfl
      | some p => rw [hc] at h; cases h
  · intro v idx x b w h
    unfold Vector.emplaceReallocThrowingCopy at h
    match b with
    | 0 => cases h; rfl
    | b0 + 1 =>
      rcases hc : uninitializedCopyN b0 (v.elems.take idx) with _ | ⟨pre, b1⟩
      · simp only [hc] at h; cases h; rfl
      · simp only [hc] at h
        rcases hd : uninitializedCopyN b1 (v.elems.drop idx) with _ | ⟨tl, b2⟩
        · simp only [hd] at h; cases h; rfl
        · simp only [hd] at h; cases h

/-- Witness for C1 (amended): a concrete throwing run of
`ReserveThrowingCopy` hits the error case and the strong guarantee applies
to it. -/
theorem claim1_witness :
    (Vector.mk [1, 2] 2).ReserveThrowingCopy 3 0 = .error (Vector.mk [1, 2] 2) ∧
    Vector.mk [1, 2] 2 = Vector.mk [1, 2] 2 :=
  ⟨rfl, (claim1_strong_guarantee_copy_relocation Nat).1 (Vector.mk [1, 2] 2) 3 0
    (Vector.mk [1, 2] 2) rfl⟩

/-- Counterexample to claim C1 as stated: instantiate `Vector<T>` at a
move-only element type whose move constructor can throw (`ThrowingMoveBox`),
so the relocation rule selects `std::uninitialized_move_n`.  On the vector
`[some 5, some 6]` with capacity 2, `Reserve(3)` with the second move
throwing leaves the vector with element 0 moved-from (`none`): size and
capacity are unchanged but an element's value is not, so the failure is not
observationally a no-op. -/
theorem claim1_counterexample :
    Vector.ReserveMoveBox (Vector.mk [some 5, some 6] 2) 3 1 =
      .error (Vector.mk [none, some 6] 2) ∧
    Vector.mk (α := ThrowingMoveBox) [none, some 6] 2 ≠ Vector.mk [some 5, some 6] 2 :=
  ⟨rfl, by decide⟩

/-- Claim C2: when an append or positional insert finds `size == capacity`,
the newly acquired storage has capacity 1 if the old capacity was 0 and
twice the old capacity otherwise; repeated appends from empty produce the
capacity sequence 0, 1, 2, 4, 4, 8, 8, 8, 8 (growth path 0 → 1 → 2 → 4 → 8). -/
theorem claim2_capacity_growth (α : Type) :
    (∀ (v : Vector α) (idx : Nat) (x : α), Vector.Size v = Vector.Capacity v →
      Vector.Capacity (v.EmplaceShared idx x).1 =
        if Vector.Capacity v = 0 then 1 else 2 * Vector.Capacity v) ∧
    (List.range 9).map (fun k => Vector.Capacity (pushNTimes k)) =
      [0, 1, 2, 4, 4, 8, 8, 8, 8] := by
  constructor
  · intro v idx x h
    unfold Vector.EmplaceShared
    rw [if_pos h]
    simp only [Vector.Capacity, h]
    rcases Nat.eq_zero_or_pos (Vector.Capacity v) with h0 | h0
    · simp [Vector.Capacity] at h0 ⊢
      simp [h0]
    · have hne : ¬ Vector.Capacity v = 0 := by omega
      simp only [Vector.Capacity] at hne ⊢
      rw [if_neg hne, if_neg hne, Nat.mul_comm]
  · decide

/-- Witness for C2: a full vector of capacity 1 grows to capacity 2. -/
theorem claim2_witness :
    Vector.Size (Vector.mk [5] 1) = Vector.Capacity (Vector.mk [5] 1) ∧
    Vector.Capacity ((Vector.mk [5] 1).EmplaceShared 0 7).1 =
      if Vector.Capacity (Vector.mk ([5] : List Nat) 1) = 0 then 1
      else 2 * Vector.Capacity (Vector.mk ([5] : List Nat) 1) :=
  ⟨rfl, (claim2_capacity_growth Nat).1 (Vector.mk [5] 1) 0 7 rfl⟩

/-- Claim C3: `Reserve(n)` is a no-op (size, capacity and all elements
unchanged) when `n` is at most the current capacity; when `n` exceeds the
current capacity it yields capacity exactly `n` while preserving the value
and relative order of every pre-existing element and leaving size
unchanged. -/
theorem claim3_Reserve (v : Vector α) (n : Nat) :
    (n ≤ Vector.Capacity v → v.Reserve n = v) ∧
    (Vector.Capacity v < n →
      Vector.Capacity (v.Reserve n) = n ∧
      (v.Reserve n).elems = v.elems ∧
      Vector.Size (v.Reserve n) = Vector.Size v) := by
  constructor
  · intro h
    have h2 : n ≤ v.capacity := h
    unfold Vector.Reserve
    rw [if_pos h2]
  · intro h
    have h2 : ¬ n ≤ v.capacity := by
      simp only [Vector.Capacity] at h; omega
    unfold Vector.Reserve
    rw [if_neg h2]
    exact ⟨rfl, rfl, rfl⟩

/-- Witness for C3: both branches at concrete inputs. -/
theorem claim3_witness :
    ((Vector.mk ([1] : List Nat) 2).Reserve 2 = Vector.mk [1] 2) ∧
    (Vector.Capacity ((Vector.mk ([1] : List Nat) 2).Reserve 5) = 5 ∧
      ((Vector.mk ([1] : List Nat) 2).Reserve 5).elems = (Vector.mk ([1] : List Nat) 2).elems ∧
      Vector.Size ((Vector.mk ([1] : List Nat) 2).Reserve 5) =
        Vector.Size (Vector.mk ([1] : List Nat) 2)) :=
  ⟨(claim3_Reserve (Vector.mk [1] 2) 2).1 (by decide),
   (claim3_Reserve (Vector.mk [1] 2) 5).2 (by decide)⟩

/-- Claim C4: for every vector and every insertion index
`idx = distance(begin, pos) ≤ size`, `Insert(pos, v)` (and `Emplace`, which
runs the same shared routine) increases size by exactly 1, the element then
at index `idx` equals the inserted value, and every other element keeps its
value and relative order — uniformly over the reallocating and the in-place
branch. -/
theorem claim4_Insert (v : Vector α) (idx : Nat) (x : α)
    (h : idx ≤ Vector.Size v) :
    Vector.Size (v.Insert idx x).1 = Vector.Size v + 1 ∧
    (v.Insert idx x).1.elems[idx]? = some x ∧
    (∀ j, j < idx → (v.Insert idx x).1.elems[j]? = v.elems[j]?) ∧
    (∀ j, idx ≤ j → j < Vector.Size v →
      (v.Insert idx x).1.elems[j + 1]? = v.elems[j]?) ∧
    v.Emplace idx x = v.Insert idx x := by
  have he : (v.Insert idx x).1.elems = v.elems.take idx ++ x :: v.elems.drop idx :=
    Vector.elems_emplaceShared v idx x
  refine ⟨?_, ?_, ?_, ?_, rfl⟩
  · simp only [Vector.Size, he]
    exact length_insertAt v.elems x idx h
  · rw [he]; exact getElem?_insertAt_self v.elems x idx h
  · intro j hj
    rw [he]; exact getElem?_insertAt_lt v.elems x idx j hj h
  · intro j hj1 hj2
    rw [he]; exact getElem?_insertAt_ge v.elems x idx j hj1 hj2

/-- Witness for C4: insert 10 at index 1 of `[1, 2, 3]`. -/
theorem claim4_witness :
    Vector.Size ((Vector.mk ([1, 2, 3] : List Nat) 4).Insert 1 10).1 =
      Vector.Size (Vector.mk ([1, 2, 3] : List Nat) 4) + 1 ∧
    ((Vector.mk ([1, 2, 3] : List Nat) 4).Insert 1 10).1.elems[1]? = some 10 :=
  ⟨(claim4_Insert (Vector.mk [1, 2, 3] 4) 1 10 (by decide)).1,
   (claim4_Insert (Vector.mk [1, 2, 3] 4) 1 10 (by decide)).2.1⟩

/-- Claim C5: for every non-empty vector and valid index `idx < size`,
`Erase(pos)` decreases size by exactly 1, removes exactly the element
previously at `pos` (elements before `idx` keep their index, elements after
it move down by one), preserves the remaining values and their relative
order, and leaves capacity unchanged. -/
theorem claim5_Erase (v : Vector α) (idx : Nat) (h : idx < Vector.Size v) :
    Vector.Size (v.Erase idx).1 = Vector.Size v - 1 ∧
    (∀ j, j < idx → (v.Erase idx).1.elems[j]? = v.elems[j]?) ∧
    (∀ j, idx ≤ j → j + 1 < Vector.Size v →
      (v.Erase idx).1.elems[j]? = v.elems[j + 1]?) ∧
    Vector.Capacity (v.Erase idx).1 = Vector.Capacity v := by
  refine ⟨?_, ?_, ?_, rfl⟩
  · exact length_eraseAt v.elems idx h
  · intro j hj
    exact getElem?_eraseAt_lt v.elems idx j hj h
  · intro j hj1 _
    exact getElem?_eraseAt_ge v.elems idx j hj1 h

/-- Witness for C5: erase index 0 of `[1, 10, 2, 3]`. -/
theorem claim5_witness :
    Vector.Size ((Vector.mk ([1, 10, 2, 3] : List Nat) 4).Erase 0).1 =
      Vector.Size (Vector.mk ([1, 10, 2, 3] : List Nat) 4) - 1 ∧
    ((Vector.mk ([1, 10, 2, 3] : List Nat) 4).Erase 0).1.elems[0]? =
      (Vector.mk ([1, 10, 2, 3] : List Nat) 4).elems[1]? :=
  ⟨(claim5_Erase (Vector.mk [1, 10, 2, 3] 4) 0 (by decide)).1,
   (claim5_Erase (Vector.mk [1, 10, 2, 3] 4) 0 (by decide)).2.2.1 0 (by decide) (by decide)⟩

/-- Claim C6: for distinct vectors with `rhs.Size() ≤ Capacity()`, copy
assignment leaves the destination's capacity unchanged (no reallocation) and
leaves the destination holding exactly the source's elements (hence the
source's size). -/
theorem claim6_copyAssign (v rhs : Vector α) (h : Vector.Size rhs ≤ Vector.Capacity v) :
    Vector.Capacity (v.copyAssign rhs) = Vector.Capacity v ∧
    (v.copyAssign rhs).elems = rhs.elems ∧
    Vector.Size (v.copyAssign rhs) = Vector.Size rhs := by
  have helems : (v.copyAssign rhs).elems = rhs.elems := by
    unfold Vector.copyAssign
    rw [if_neg (by omega)]
    split
    · rename_i hlt
      simp only
      rw [List.take_append_of_le_length (by simp [Vector.Size])]
      simp [Vector.Size]
    · simp [List.take_append_drop]
  refine ⟨?_, helems, ?_⟩
  · unfold Vector.copyAssign
    rw [if_neg (by omega)]
    split <;> rfl
  · simp only [Vector.Size, helems]

/-- Witness for C6: copy-assign a 1-element source into a 3-element
destination of capacity 4. -/
theorem claim6_witness :
    Vector.Capacity ((Vector.mk ([1, 2, 3] : List Nat) 4).copyAssign (Vector.mk [9] 1)) =
      Vector.Capacity (Vector.mk ([1, 2, 3] : List Nat) 4) ∧
    ((Vector.mk ([1, 2, 3] : List Nat) 4).copyAssign (Vector.mk [9] 1)).elems =
      (Vector.mk ([9] : List Nat) 1).elems ∧
    Vector.Size ((Vector.mk ([1, 2, 3] : List Nat) 4).copyAssign (Vector.mk [9] 1)) =
      Vector.Size (Vector.mk ([9] : List Nat) 1) :=
  claim6_copyAssign (Vector.mk [1, 2, 3] 4) (Vector.mk [9] 1) (by decide)

/-- Claim C7: for distinct objects, move assignment and move construction
transfer storage and size without any per-element operation: the destination
ends with the source's old buffer contents (every element, in order), old
capacity and old size, and the source ends with size 0 and empty storage
(capacity 0). -/
theorem claim7_move_transfer (α : Type) :
    (∀ (h : Store α) (t r : Bool), t ≠ r →
      (vectorMoveAssign h t r) t = h r ∧
      (vectorMoveAssign h t r) r = VecObj.mk [] 0 0) ∧
    (∀ src : VecObj α,
      vectorMoveConstruct src = (src, VecObj.mk [] 0 0)) := by
  constructor
  · intro h t r hne
    cases t <;> cases r <;> simp_all [vectorMoveAssign, rawMemoryMoveAssign, setObj]
  · intro src
    unfold vectorMoveConstruct
    simp [vectorMoveAssign, rawMemoryMoveAssign, setObj]

/-- Witness for C7: a concrete distinct-object move assignment. -/
theorem claim7_witness :
    (vectorMoveAssign
      (fun b => if b then VecObj.mk ([1, 2] : List Nat) 4 2 else VecObj.mk [9] 1 1)
      true false) true =
      (fun b => if b then VecObj.mk ([1, 2] : List Nat) 4 2 else VecObj.mk [9] 1 1) false ∧
    (vectorMoveAssign
      (fun b => if b then VecObj.mk ([1, 2] : List Nat) 4 2 else VecObj.mk [9] 1 1)
      true false) false = VecObj.mk [] 0 0 :=
  (claim7_move_transfer Nat).1
    (fun b => if b then VecObj.mk [1, 2] 4 2 else VecObj.mk [9] 1 1)
    true false (by decide)

/-- Claim C8: `Resize(n)` with `n < size` destroys exactly the trailing
`size - n` elements, leaving the first `n` unchanged and the capacity
unchanged; with `n > size` it first reserves capacity `n` (resulting
capacity `max capacity n`) and default-constructs the `n - size` new
trailing slots, leaving the first `size` values unchanged; in both cases
size becomes `n`, and `Resize` never decreases capacity. -/
theorem claim8_Resize [Inhabited α] (v : Vector α) (n : Nat) :
    (n < Vector.Size v →
      Vector.Size (v.Resize n) = n ∧
      (∀ j, j < n → (v.Resize n).elems[j]? = v.elems[j]?) ∧
      Vector.Capacity (v.Resize n) = Vector.Capacity v) ∧
    (Vector.Size v < n →
      Vector.Size (v.Resize n) = n ∧
      (∀ j, j < Vector.Size v → (v.Resize n).elems[j]? = v.elems[j]?) ∧
      (∀ j, Vector.Size v ≤ j → j < n → (v.Resize n).elems[j]? = some default) ∧
      Vector.Capacity (v.Resize n) = max (Vector.Capacity v) n) ∧
    Vector.Capacity v ≤ Vector.Capacity (v.Resize n) := by
  refine ⟨?_, ?_, ?_⟩
  · intro h
    refine ⟨?_, ?_, ?_⟩
    · simp only [Vector.Size, Vector.resize_shrink_elems v n h, List.length_take]
      simp only [Vector.Size] at h
      omega
    · intro j hj
      rw [Vector.resize_shrink_elems v n h, List.getElem?_take, if_pos hj]
    · simp only [Vector.Capacity, Vector.resize_shrink_capacity v n h]
  · intro h
    refine ⟨?_, ?_, ?_, ?_⟩
    · simp only [Vector.Size, Vector.resize_grow_elems v n h, List.length_append,
        List.length_replicate]
      simp only [Vector.Size] at h
      omega
    · intro j hj
      simp only [Vector.Size] at hj
      rw [Vector.resize_grow_elems v n h, List.getElem?_append, if_pos hj]
    · intro j hj1 hj2
      simp only [Vector.Size] at hj1 hj2
      rw [Vector.resize_grow_elems v n h, List.getElem?_append,
        if_neg (by omega), List.getElem?_replicate,
        if_pos (by simp only [Vector.Size]; omega)]
    · simp only [Vector.Capacity, Vector.resize_grow_capacity v n h]
  · rcases Nat.lt_trichotomy n (Vector.Size v) with h | h | h
    · show v.capacity ≤ (v.Resize n).capacity
      rw [Vector.resize_shrink_capacity v n h]
    · show v.capacity ≤ (v.Resize n).capacity
      unfold Vector.Resize
      rw [if_pos h]
    · show v.capacity ≤ (v.Resize n).capacity
      rw [Vector.resize_grow_capacity v n h]
      omega

/-- Witness for C8: `Resize(5)` and `Resize(2)` on `[10, 2, 3]` with
capacity 4. -/
theorem claim8_witness :
    (Vector.Size ((Vector.mk ([10, 2, 3] : List Nat) 4).Resize 2) = 2 ∧
      Vector.Capacity ((Vector.mk ([10, 2, 3] : List Nat) 4).Resize 2) =
        Vector.Capacity (Vector.mk ([10, 2, 3] : List Nat) 4)) ∧
    (Vector.Size ((Vector.mk ([10, 2, 3] : List Nat) 4).Resize 5) = 5 ∧
      ((Vector.mk ([10, 2, 3] : List Nat) 4).Resize 5).elems[3]? = some 0) :=
  ⟨⟨((claim8_Resize (Vector.mk [10, 2, 3] 4) 2).1 (by decide)).1,
    ((claim8_Resize (Vector.mk [10, 2, 3] 4) 2).1 (by decide)).2.2⟩,
   ⟨((claim8_Resize (Vector.mk [10, 2, 3] 4) 5).2.1 (by decide)).1,
    ((claim8_Resize (Vector.mk [10, 2, 3] 4) 5).2.1 (by decide)).2.2.1 3
      (by decide) (by decide)⟩⟩

/-- Claim C9: move-assigning a vector into itself (`v = std::move(v)`) runs
the unguarded member assignments through aliased handles and leaves the
object with size 0, capacity 0 and no storage, discarding all its elements,
for every starting state. -/
theorem claim9_self_move_assign (h : Store α) (t : Bool) :
    (vectorMoveAssign h t t) t = VecObj.mk [] 0 0 := by
  cases t <;> simp [vectorMoveAssign, rawMemoryMoveAssign, setObj]

/-- Claim C10: `Emplace`/`Insert` at `pos` return an iterator to the newly
inserted element (index `distance(begin, pos)` after the call, whose element
equals the inserted value), and `EmplaceBack` returns a reference to the new
last element. -/
theorem claim10_return_values (v : Vector α) (idx : Nat) (x : α)
    (h : idx ≤ Vector.Size v) :
    (v.Emplace idx x).2 = idx ∧
    (v.Insert idx x).2 = idx ∧
    (v.Insert idx x).1.elems[(v.Insert idx x).2]? = some x ∧
    (v.EmplaceBack x).2 = Vector.Size (v.EmplaceBack x).1 - 1 ∧
    (v.EmplaceBack x).1.elems[(v.EmplaceBack x).2]? = some x := by
  have hsnd : (v.Insert idx x).2 = idx := Vector.snd_emplaceShared v idx x
  have hins : (v.Insert idx x).1.elems = v.elems.take idx ++ x :: v.elems.drop idx :=
    Vector.elems_emplaceShared v idx x
  have hsndb : (v.EmplaceBack x).2 = v.elems.length :=
    Vector.snd_emplaceShared v (Vector.Size v) x
  have heb : (v.EmplaceBack x).1.elems =
      v.elems.take v.elems.length ++ x :: v.elems.drop v.elems.length :=
    Vector.elems_emplaceShared v (Vector.Size v) x
  have hlen := length_insertAt v.elems x v.elems.length (Nat.le_refl _)
  refine ⟨hsnd, hsnd, ?_, ?_, ?_⟩
  · rw [hsnd, hins]
    exact getElem?_insertAt_self v.elems x idx h
  · rw [hsndb]
    simp only [Vector.Size, heb, hlen]
    omega
  · rw [hsndb, heb]
    exact getElem?_insertAt_self v.elems x v.elems.length (Nat.le_refl _)

/-- Witness for C10: insert at index 1 of `[1, 2, 3]` and emplace at the
back. -/
theorem claim10_witness :
    ((Vector.mk ([1, 2, 3] : List Nat) 4).Insert 1 10).2 = 1 ∧
    ((Vector.mk ([1, 2, 3] : List Nat) 4).EmplaceBack 10).1.elems[
      ((Vector.mk ([1, 2, 3] : List Nat) 4).EmplaceBack 10).2]? = some 10 :=
  ⟨(claim10_return_values (Vector.mk [1, 2, 3] 4) 1 10 (by decide)).2.1,
   (claim10_return_values (Vector.mk [1, 2, 3] 4) 1 10 (by decide)).2.2.2.2⟩

end AdvancedVector
